import Mathlib

/-!
# Verification of the HikeUp plan-page core

Shallow embedding of the logic-bearing core of `apps/web/src/app/plan/page.tsx`:
the prompt classifier (`parsePrompt`), the route synthesizer
(`buildRouteFromPrompt` / `generateShape`), the per-mode route-list insertion
performed by `handleCoachPlan`, the distance fallback (`suggestDistance`),
the duration estimate (`estimateTime`) and the geographic transform of
`buildRouteGeo`.

Conventions of the embedding:
* JavaScript numbers are modelled as exact rationals (`ℚ`); `Math.round` is
  `jround` (round half toward positive infinity, which is JS semantics).
* Strings are modelled as `String` / `List Char`.  `String.prototype.match`
  against the two distance regexes is modelled by the explicit left-to-right
  scanner `scanDist`; the regexes `/(\d+(?:[.,]\d+)?)(?:\s*(km|k|kil[oó]metros))/`
  and `/(\d+(?:[.,]\d+)?)(?:\s*(mi|millas))/` contain no backtracking-relevant
  choice (greedy digit runs can never help an alternative fail or succeed),
  so the scanner is deterministic.
* `toLowerCase` is modelled on the characters that can occur in the source
  keywords: ASCII letters plus the accented Spanish capitals.
-/

namespace HikeUp

/-- The activity mode: `type Mode = "run" | "jog" | "walk" | "hike"`. -/
inductive Mode where
  | run
  | jog
  | walk
  | hike
deriving DecidableEq, Repr

/-- The training-intent union type of `parsePrompt`:
`"easy" | "tempo" | "intervals" | "trail"`. -/
inductive TrainIntent where
  | easy
  | tempo
  | intervals
  | trail
deriving DecidableEq, Repr

/-- A waypoint `{ x: number; y: number; label?: string }` of the normalized
0–100 plane. -/
structure Pt where
  x : ℚ
  y : ℚ
  label : Option String
deriving DecidableEq, Repr

/-- The `RouteOption` record of the source (page.tsx lines 27–36). -/
structure RouteOption where
  id : String
  title : String
  distanceKm : ℚ
  safety : String
  elevation : String
  estMinutes : ℤ
  surface : String
  points : List Pt
deriving DecidableEq, Repr

/-- Result record of `parsePrompt` (the classifier's `Intent`). -/
structure Intent where
  mode : Mode
  distanceKm : Option ℚ
  focus : String
  intent : TrainIntent
deriving DecidableEq, Repr

/-- JavaScript `Math.round`: round half toward positive infinity. -/
def jround (q : ℚ) : ℤ := ⌊q + 1/2⌋

/-- `estimateTime` (page.tsx 1423–1427): pace table and rounding. -/
def estimateTime (distanceKm : ℚ) (mode : Mode) : ℤ :=
  let pace : ℚ :=
    if mode = Mode.walk then 11.5
    else if mode = Mode.jog then 6.5
    else if mode = Mode.hike then 10.5
    else 5.2
  jround (distanceKm * pace / 1)

/-- `suggestDistance` (page.tsx 1416–1421): per-mode fallback distance. -/
def suggestDistance (mode : Mode) : ℚ :=
  if mode = Mode.walk then 4.5
  else if mode = Mode.jog then 6.5
  else if mode = Mode.hike then 10.5
  else 8.0

/-- The string interpolated for a `Mode` in a template literal. -/
def modeStr (mode : Mode) : String :=
  match mode with
  | Mode.run => "run"
  | Mode.jog => "jog"
  | Mode.walk => "walk"
  | Mode.hike => "hike"

/-- `Array.prototype.splice(n, 0, a)`: insert `a` at index `n`. -/
def insertAt (n : ℕ) (a : α) (l : List α) : List α := l.take n ++ a :: l.drop n

/-- `generateShape` (page.tsx 1365–1381): fixed 4-point base polyline,
augmented at the 9 km and 12 km thresholds exactly as the source's two
`splice` calls and the end-point overwrite do. -/
def generateShape (distanceKm : ℚ) : List Pt :=
  let base : List Pt :=
    [⟨12, 86, some ("Inicio")⟩, ⟨36, 64, none⟩, ⟨58, 50, none⟩,
     ⟨82, 26, some ("Fin")⟩]
  let b1 :=
    if distanceKm > 9 then
      let t := insertAt 2 ⟨48, 56, some ("Punto")⟩ base
      t.set (t.length - 1) ⟨86, 18, some ("Fin")⟩
    else base
  let b2 :=
    if distanceKm > 12 then insertAt 1 ⟨26, 74, some ("Extra")⟩ b1 else b1
  b2

/-- `buildRouteFromPrompt` (page.tsx 1351–1363), the route synthesizer. -/
def buildRouteFromPrompt (distanceKm : ℚ) (mode : Mode) (focus : String) :
    RouteOption :=
  { id := "coach-" ++ modeStr mode ++ "-" ++ toString (jround (distanceKm * 10))
    title := "Coach: " ++ focus
    distanceKm := distanceKm
    safety := focus
    elevation :=
      if mode = Mode.hike then "+200 m"
      else if mode = Mode.run then "+80 m" else "+40 m"
    estMinutes := estimateTime distanceKm mode
    surface := if mode = Mode.hike then "Trail" else focus
    points := generateShape distanceKm }

/-- The per-mode list update of `handleCoachPlan` (page.tsx 194–197):
`[...list.filter((r) => r.id !== newRoute.id), newRoute]`. -/
def insertRoute (list : List RouteOption) (newRoute : RouteOption) :
    List RouteOption :=
  (list.filter fun r => r.id != newRoute.id) ++ [newRoute]

/-- `MAP_CENTER` (page.tsx 141): `[-74.042, 4.6946]` as `(lng, lat)`. -/
def MAP_CENTER : ℚ × ℚ := (-74.042, 4.6946)

/-- The coordinate transform of `buildRouteGeo` (page.tsx 656–660). -/
def geoCoords (route : RouteOption) : List (ℚ × ℚ) :=
  route.points.map fun p =>
    (MAP_CENTER.1 + (p.x - 50) * 0.00075, MAP_CENTER.2 + (50 - p.y) * 0.00075)

/-- The `kind` metadata field of `buildRouteGeo`'s point features
(page.tsx 690): index 0 is classified start, the last index end, the rest
mid.  (`coords.length = route.points.length` since `coords` is a `map`.) -/
def geoKinds (route : RouteOption) : List String :=
  (List.range route.points.length).map fun idx =>
    if idx = 0 then "start"
    else if idx = route.points.length - 1 then "end" else "mid"

/-- `String.prototype.toLowerCase`, restricted to the characters relevant to
the classifier: ASCII capitals and the accented Spanish capitals. -/
def jsLower (c : Char) : Char :=
  if 'A' ≤ c ∧ c ≤ 'Z' then Char.ofNat (c.toNat + 32)
  else if c = 'Á' then 'á'
  else if c = 'É' then 'é'
  else if c = 'Í' then 'í'
  else if c = 'Ó' then 'ó'
  else if c = 'Ú' then 'ú'
  else if c = 'Ñ' then 'ñ'
  else c

/-- `String.prototype.includes`: substring containment. -/
def includes (hay needle : List Char) : Bool :=
  match hay with
  | [] => needle.isEmpty
  | _ :: t => List.isPrefixOf needle hay || includes t needle

/-- The character class `\s` of JavaScript regexes (common members). -/
def isSpaceJS (c : Char) : Bool :=
  c = ' ' || c = '\t' || c = '\n' || c = '\r' || c = '\x0b' || c = '\x0c'

/-- Match `\d+(?:[.,]\d+)?` at the head of `l` (greedy, as the regex is):
returns the captured number token and the remaining input. -/
def matchNumAt (l : List Char) : Option (List Char × List Char) :=
  let ds := l.takeWhile (fun c => c.isDigit)
  let r1 := l.dropWhile (fun c => c.isDigit)
  if ds.isEmpty then none
  else
    match r1 with
    | [] => some (ds, [])
    | c :: r2 =>
      if c = '.' || c = ',' then
        let fs := r2.takeWhile (fun c2 => c2.isDigit)
        let r3 := r2.dropWhile (fun c2 => c2.isDigit)
        if fs.isEmpty then some (ds, r1) else some (ds ++ c :: fs, r3)
      else some (ds, r1)

/-- Does one of the unit alternatives match at the head of `l`? -/
def unitHere (units : List (List Char)) (l : List Char) : Bool :=
  units.any fun u => List.isPrefixOf u l

/-- Match the full pattern `\d+(?:[.,]\d+)?\s*(unit₁|…|unitₙ)` at the head of
`l`, returning the captured number token. -/
def matchDistAt (units : List (List Char)) (l : List Char) : Option (List Char) :=
  match matchNumAt l with
  | none => none
  | some (num, rest) =>
    if unitHere units (rest.dropWhile isSpaceJS) then some num else none

/-- Left-to-right scan for the first (leftmost) match of the distance
pattern, as `String.prototype.match` does for an unanchored regex. -/
def scanDist (units : List (List Char)) : List Char → Option (List Char)
  | [] => none
  | c :: cs =>
    match matchDistAt units (c :: cs) with
    | some num => some num
    | none => scanDist units cs

/-- The alternatives of `(km|k|kil[oó]metros)`. -/
def kmUnits : List (List Char) :=
  [("km").data, ("k").data, ("kilómetros").data, ("kilometros").data]

/-- The alternatives of `(mi|millas)`. -/
def miUnits : List (List Char) := [("mi").data, ("millas").data]

/-- `String.prototype.replace(",", ".")`: replace the first comma (the
captured token holds at most one). -/
def replaceCommaOnce : List Char → List Char
  | [] => []
  | c :: cs => if c = ',' then '.' :: cs else c :: replaceCommaOnce cs

/-- Numeric value of a digit string. -/
def digitsVal (l : List Char) : ℕ :=
  l.foldl (fun n c => 10 * n + (c.toNat - 48)) 0

/-- `parseFloat` on a captured token of shape `\d+(\.\d+)?`. -/
def parseDec (l : List Char) : ℚ :=
  let ds := l.takeWhile (fun c => c.isDigit)
  let r := l.dropWhile (fun c => c.isDigit)
  match r with
  | [] => (digitsVal ds : ℚ)
  | _ :: fs => (digitsVal ds : ℚ) + (digitsVal fs : ℚ) / (10 : ℚ) ^ fs.length

/-- The `distanceKm` computation of `parsePrompt` (page.tsx 1315–1321):
kilometre regex first, then the mile regex with the 1.609 factor. -/
def distanceOf (lower : List Char) : Option ℚ :=
  match scanDist kmUnits lower with
  | some n => some (parseDec (replaceCommaOnce n))
  | none =>
    match scanDist miUnits lower with
    | some n => some (parseDec (replaceCommaOnce n) * 1.609)
    | none => none

/-- The four sequential mode-override checks of `parsePrompt`
(page.tsx 1323–1327). -/
def modeOf (lower : List Char) (currentMode : Mode) : Mode :=
  let m1 := if includes lower (("caminar").data) then Mode.walk else currentMode
  let m2 := if includes lower (("trot").data) then Mode.jog else m1
  let m3 :=
    if includes lower (("trail").data) || includes lower (("sendero").data)
    then Mode.hike else m2
  if includes lower (("correr").data) || includes lower (("rápido").data) ||
      includes lower (("interval").data)
  then Mode.run else m3

/-- The training-intent cascade of `parsePrompt` (page.tsx 1329–1336). -/
def intentOf (lower : List Char) : TrainIntent :=
  if includes lower (("interval").data) || includes lower (("series").data)
  then TrainIntent.intervals
  else if includes lower (("tempo").data) || includes lower (("ritmo").data)
  then TrainIntent.tempo
  else if includes lower (("trail").data) || includes lower (("desnivel").data)
  then TrainIntent.trail
  else TrainIntent.easy

/-- The focus-label cascade of `parsePrompt` (page.tsx 1338–1346).  The
source labels are Spanish; the spec refers to them by English glosses
(Parques = "Parks", Iluminación alta = "High lighting", Tráfico bajo =
"Low traffic", Terreno mixto = "Mixed terrain", Ruta equilibrada =
"Balanced route"). -/
def focusOf (lower : List Char) : String :=
  if includes lower (("parque").data) then "Parques"
  else if includes lower (("ilumin").data) then "Iluminación alta"
  else if includes lower (("tráfico").data) then "Tráfico bajo"
  else if intentOf lower = TrainIntent.trail then "Terreno mixto"
  else "Ruta equilibrada"

/-- `parsePrompt` (page.tsx 1307–1349), the prompt classifier (`classify`
in the spec's terminology). -/
def parsePrompt (prompt : List Char) (currentMode : Mode) : Intent :=
  let lower := prompt.map jsLower
  { mode := modeOf lower currentMode
    distanceKm := distanceOf lower
    focus := focusOf lower
    intent := intentOf lower }

/-- The distance fallback and route construction of `handleCoachPlan`
(page.tsx 188–192): `parsed.distanceKm ?? suggestDistance(parsed.mode)`
feeds `buildRouteFromPrompt`. -/
def coachPlanRoute (prompt : List Char) (mode : Mode) : RouteOption :=
  let parsed := parsePrompt prompt mode
  let distanceKm := parsed.distanceKm.getD (suggestDistance parsed.mode)
  buildRouteFromPrompt distanceKm parsed.mode parsed.focus

/-! ## Spec-level characterisation of the distance regex -/

/-- A number token of the shape `\d+([.,]\d+)?` (digits maximal, i.e. the
token is what the greedy regex captures). -/
def isNumTok (n : List Char) : Bool :=
  let ds := n.takeWhile (fun c => c.isDigit)
  let r := n.dropWhile (fun c => c.isDigit)
  !ds.isEmpty &&
    (match r with
     | [] => true
     | c :: fs => (c = '.' || c = ',') && !fs.isEmpty && fs.all (fun c2 => c2.isDigit))

/-- Every unit alternative is nonempty and starts with a character that is
neither a digit, a decimal separator, nor whitespace (true of both the
kilometre and the mile alternatives). -/
def goodUnits (units : List (List Char)) : Bool :=
  units.all fun u =>
    match u with
    | [] => false
    | c :: _ => !c.isDigit && !(c = '.' || c = ',') && !isSpaceJS c

/-- `num` occurs somewhere in `l`, immediately followed by optional
whitespace and one of the unit alternatives: the spec-level reading of
"a prompt containing a number followed by a unit". -/
def OccursWithUnit (units : List (List Char)) (l num : List Char) : Prop :=
  ∃ pre ws unit rest, l = pre ++ num ++ ws ++ unit ++ rest ∧
    isNumTok num = true ∧ ws.all isSpaceJS = true ∧ unit ∈ units

/-- `l` contains a number followed by one of the unit alternatives. -/
def HasDistance (units : List (List Char)) (l : List Char) : Prop :=
  ∃ num, OccursWithUnit units l num

/-! ## List helpers -/

theorem takeWhile_append_all {α} {p : α → Bool} (l1 l2 : List α)
    (h : ∀ c ∈ l1, p c = true) :
    (l1 ++ l2).takeWhile p = l1 ++ l2.takeWhile p := by
  induction l1 with
  | nil => simp
  | cons a t ih =>
    have ha := h a (by simp)
    simp [List.takeWhile_cons, ha, ih fun c hc => h c (by simp [hc])]

theorem dropWhile_append_all {α} {p : α → Bool} (l1 l2 : List α)
    (h : ∀ c ∈ l1, p c = true) :
    (l1 ++ l2).dropWhile p = l2.dropWhile p := by
  induction l1 with
  | nil => simp
  | cons a t ih =>
    have ha := h a (by simp)
    simp [List.dropWhile_cons, ha, ih fun c hc => h c (by simp [hc])]

theorem takeWhile_all_self {α} {p : α → Bool} (l : List α)
    (h : ∀ c ∈ l, p c = true) : l.takeWhile p = l := by
  simpa using takeWhile_append_all l [] h

theorem dropWhile_all_nil {α} {p : α → Bool} (l : List α)
    (h : ∀ c ∈ l, p c = true) : l.dropWhile p = [] := by
  simpa using dropWhile_append_all l [] h

theorem isPrefixOf_append_self : ∀ (a b : List Char),
    List.isPrefixOf a (a ++ b) = true
  | [], _ => by simp [List.isPrefixOf]
  | c :: t, b => by
    simp only [List.cons_append, List.isPrefixOf, Bool.and_eq_true, beq_iff_eq]
    exact ⟨trivial, isPrefixOf_append_self t b⟩

theorem exists_of_isPrefixOf {u : List Char} :
    ∀ {l : List Char}, List.isPrefixOf u l = true → ∃ t, l = u ++ t := by
  induction u with
  | nil => exact fun h => ⟨_, rfl⟩
  | cons c t ih =>
    intro l h
    cases l with
    | nil => simp [List.isPrefixOf] at h
    | cons d ds =>
      simp only [List.isPrefixOf, Bool.and_eq_true, beq_iff_eq] at h
      obtain ⟨rfl, h2⟩ := h
      obtain ⟨tl, rfl⟩ := ih h2
      exact ⟨tl, rfl⟩

/-! ## Character-class facts -/

theorem space_not_digit {c : Char} (h : isSpaceJS c = true) :
    c.isDigit = false := by
  simp only [isSpaceJS, Bool.or_eq_true, decide_eq_true_eq] at h
  rcases h with ((((h | h) | h) | h) | h) | h <;> subst h <;> decide

theorem space_not_sep {c : Char} (h : isSpaceJS c = true) :
    (c = '.' || c = ',') = false := by
  simp only [isSpaceJS, Bool.or_eq_true, decide_eq_true_eq] at h
  rcases h with ((((h | h) | h) | h) | h) | h <;> subst h <;> decide

theorem takeWhile_stop {α} {p : α → Bool} (l1 l2 : List α)
    (h1 : ∀ c ∈ l1, p c = true) (h2 : ∀ c, l2.head? = some c → p c = false) :
    (l1 ++ l2).takeWhile p = l1 ∧ (l1 ++ l2).dropWhile p = l2 := by
  constructor
  · rw [takeWhile_append_all l1 l2 h1]
    cases l2 with
    | nil => simp
    | cons c cs => simp [List.takeWhile_cons, h2 c rfl]
  · rw [dropWhile_append_all l1 l2 h1]
    cases l2 with
    | nil => simp
    | cons c cs => simp [List.dropWhile_cons, h2 c rfl]

theorem isEmpty_false_of_ne_nil {α} {l : List α} (h : l ≠ []) :
    l.isEmpty = false := by
  cases l with
  | nil => exact absurd rfl h
  | cons a t => rfl

/-! ## Number-token lemmas -/

theorem isNumTok_digits {ds : List Char} (hne : ds ≠ [])
    (hall : ∀ c ∈ ds, c.isDigit = true) : isNumTok ds = true := by
  have h1 := takeWhile_all_self ds hall
  have h2 := dropWhile_all_nil ds hall
  simp [isNumTok, h1, h2, isEmpty_false_of_ne_nil hne]

theorem isNumTok_frac {ds fs : List Char} {c : Char} (hne : ds ≠ [])
    (hall : ∀ x ∈ ds, x.isDigit = true) (hc : (c = '.' || c = ',') = true)
    (hfs : fs ≠ []) (hfall : ∀ x ∈ fs, x.isDigit = true) :
    isNumTok (ds ++ c :: fs) = true := by
  have hcd : c.isDigit = false := by
    simp only [Bool.or_eq_true, decide_eq_true_eq] at hc
    rcases hc with h | h <;> subst h <;> decide
  obtain ⟨ht, hd⟩ := takeWhile_stop ds (c :: fs) hall
    (fun x hx => by rw [← Option.some.inj hx]; exact hcd)
  simp [isNumTok, ht, hd, isEmpty_false_of_ne_nil hne,
    isEmpty_false_of_ne_nil hfs, hc, List.all_eq_true]
  exact hfall

theorem numTok_cases {n : List Char} (h : isNumTok n = true) :
    ∃ ds, ds ≠ [] ∧ (∀ c ∈ ds, c.isDigit = true) ∧
      (n = ds ∨ ∃ c fs, (c = '.' || c = ',') = true ∧ fs ≠ [] ∧
        (∀ x ∈ fs, x.isDigit = true) ∧ n = ds ++ c :: fs) := by
  have hsplit := (List.takeWhile_append_dropWhile (fun c => c.isDigit) n).symm
  simp only [isNumTok, Bool.and_eq_true] at h
  refine ⟨n.takeWhile (fun c => c.isDigit), ?_,
    fun c hc => List.mem_takeWhile_imp hc, ?_⟩
  · intro hnil
    rw [hnil] at h
    simp at h
  · cases hDW : n.dropWhile (fun c => c.isDigit) with
    | nil =>
      left
      rw [hDW] at hsplit
      simpa using hsplit
    | cons c fs =>
      right
      rw [hDW] at h hsplit
      simp only [Bool.and_eq_true] at h
      refine ⟨c, fs, h.2.1.1, ?_, List.all_eq_true.mp h.2.2, hsplit⟩
      intro hnil
      rw [hnil] at h
      simp at h

theorem numTok_ne_nil {n : List Char} (h : isNumTok n = true) : n ≠ [] := by
  intro hnil
  subst hnil
  simp [isNumTok] at h

/-! ## Head-match lemmas for the number pattern -/

theorem matchNumAt_digits {ds tail : List Char} (hne : ds ≠ [])
    (hall : ∀ c ∈ ds, c.isDigit = true)
    (htail : ∀ c, tail.head? = some c →
      c.isDigit = false ∧ (c = '.' || c = ',') = false) :
    matchNumAt (ds ++ tail) = some (ds, tail) := by
  obtain ⟨ht, hd⟩ := takeWhile_stop ds tail hall (fun c hc => (htail c hc).1)
  have hE := isEmpty_false_of_ne_nil hne
  simp only [matchNumAt, ht, hd, hE, Bool.false_eq_true, if_false]
  cases tail with
  | nil => rfl
  | cons c cs => simp [(htail c rfl).2]

theorem matchNumAt_frac {ds fs tail : List Char} {c : Char} (hne : ds ≠ [])
    (hall : ∀ x ∈ ds, x.isDigit = true)
    (hc : (c = '.' || c = ',') = true)
    (hfs : fs ≠ []) (hfall : ∀ x ∈ fs, x.isDigit = true)
    (htail : ∀ x, tail.head? = some x → x.isDigit = false) :
    matchNumAt (ds ++ c :: fs ++ tail) = some (ds ++ c :: fs, tail) := by
  have hcd : c.isDigit = false := by
    simp only [Bool.or_eq_true, decide_eq_true_eq] at hc
    rcases hc with h | h <;> subst h <;> decide
  obtain ⟨htf, hdf⟩ := takeWhile_stop fs tail hfall htail
  obtain ⟨ht, hd⟩ := takeWhile_stop ds (c :: (fs ++ tail)) hall
    (fun x hx => by rw [← Option.some.inj hx]; exact hcd)
  have hgoal : ds ++ c :: fs ++ tail = ds ++ c :: (fs ++ tail) := by simp
  rw [hgoal]
  simp [matchNumAt, ht, hd, isEmpty_false_of_ne_nil hne, hc, htf, hdf,
    isEmpty_false_of_ne_nil hfs]

theorem matchNumAt_tok {num tail : List Char} (hnum : isNumTok num = true)
    (htail : ∀ x, tail.head? = some x →
      x.isDigit = false ∧ (x = '.' || x = ',') = false) :
    matchNumAt (num ++ tail) = some (num, tail) := by
  obtain ⟨ds, hne, hall, hcase⟩ := numTok_cases hnum
  rcases hcase with rfl | ⟨c, fs, hc, hfs, hfall, rfl⟩
  · exact matchNumAt_digits hne hall htail
  · have := matchNumAt_frac hne hall hc hfs hfall (fun x hx => (htail x hx).1)
    simpa using this

theorem matchNumAt_sound {l num rest : List Char}
    (h : matchNumAt l = some (num, rest)) :
    l = num ++ rest ∧ isNumTok num = true := by
  have hall : ∀ c ∈ l.takeWhile (fun c => c.isDigit), c.isDigit = true :=
    fun c hc => List.mem_takeWhile_imp hc
  simp only [matchNumAt] at h
  split at h
  · exact absurd h (by simp)
  · rename_i hE
    have hne : l.takeWhile (fun c => c.isDigit) ≠ [] := by
      intro hnil
      rw [hnil] at hE
      simp at hE
    split at h
    · rename_i hDW
      obtain ⟨rfl, rfl⟩ := Prod.mk.inj (Option.some.inj h)
      constructor
      · have hsp := (List.takeWhile_append_dropWhile (fun c => c.isDigit) l).symm
        rw [hDW] at hsp
        simpa using hsp
      · exact isNumTok_digits hne hall
    · rename_i c r2 hDW
      have hall2 : ∀ x ∈ r2.takeWhile (fun c2 => c2.isDigit), x.isDigit = true :=
        fun x hx => List.mem_takeWhile_imp hx
      split at h
      · rename_i hc
        split at h
        · rename_i hfse
          obtain ⟨rfl, rfl⟩ := Prod.mk.inj (Option.some.inj h)
          exact ⟨(List.takeWhile_append_dropWhile _ _).symm,
            isNumTok_digits hne hall⟩
        · rename_i hfse
          have hfs : r2.takeWhile (fun c2 => c2.isDigit) ≠ [] := by
            intro hnil
            rw [hnil] at hfse
            simp at hfse
          obtain ⟨rfl, rfl⟩ := Prod.mk.inj (Option.some.inj h)
          constructor
          · have hsp := (List.takeWhile_append_dropWhile (fun c => c.isDigit) l).symm
            rw [hDW] at hsp
            have hr2 : (c :: r2 : List Char) =
                c :: (r2.takeWhile (fun c2 => c2.isDigit) ++
                  r2.dropWhile (fun c2 => c2.isDigit)) := by
              rw [List.takeWhile_append_dropWhile]
            conv_lhs => rw [hsp, hr2]
            simp [List.append_assoc]
          · exact isNumTok_frac hne hall hc hfs hall2
      · obtain ⟨rfl, rfl⟩ := Prod.mk.inj (Option.some.inj h)
        exact ⟨(List.takeWhile_append_dropWhile _ _).symm,
          isNumTok_digits hne hall⟩

/-! ## Full-pattern match lemmas -/

theorem goodUnit_head {units : List (List Char)} (hg : goodUnits units = true)
    {unit : List Char} (hu : unit ∈ units) :
    ∃ u0 ut, unit = u0 :: ut ∧ u0.isDigit = false ∧
      (u0 = '.' || u0 = ',') = false ∧ isSpaceJS u0 = false := by
  have h := List.all_eq_true.mp hg unit hu
  cases unit with
  | nil => simp at h
  | cons c t =>
    simp only [Bool.and_eq_true, Bool.not_eq_true'] at h
    exact ⟨c, t, rfl, h.1.1, h.1.2, h.2⟩

theorem matchDistAt_of_occurs {units : List (List Char)}
    (hg : goodUnits units = true) {num ws unit rest : List Char}
    (hnum : isNumTok num = true) (hws : ws.all isSpaceJS = true)
    (hu : unit ∈ units) :
    matchDistAt units (num ++ (ws ++ (unit ++ rest))) = some num := by
  obtain ⟨u0, ut, rfl, hu0d, hu0sep, hu0sp⟩ := goodUnit_head hg hu
  have hwsall : ∀ c ∈ ws, isSpaceJS c = true := List.all_eq_true.mp hws
  have hcons : (u0 :: ut) ++ rest = u0 :: (ut ++ rest) := rfl
  rw [hcons]
  have htail : ∀ x, (ws ++ (u0 :: (ut ++ rest))).head? = some x →
      x.isDigit = false ∧ (x = '.' || x = ',') = false := by
    intro x hx
    cases ws with
    | nil =>
      rw [← Option.some.inj hx]
      exact ⟨hu0d, hu0sep⟩
    | cons w wt =>
      rw [← Option.some.inj hx]
      have hwsp := hwsall w (by simp)
      exact ⟨space_not_digit hwsp, space_not_sep hwsp⟩
  have hm := matchNumAt_tok hnum htail
  simp only [matchDistAt, hm]
  have hdrop : (ws ++ (u0 :: (ut ++ rest))).dropWhile isSpaceJS =
      u0 :: (ut ++ rest) := by
    rw [dropWhile_append_all ws (u0 :: (ut ++ rest)) hwsall]
    simp [List.dropWhile_cons, hu0sp]
  rw [hdrop]
  have hh : unitHere units (u0 :: (ut ++ rest)) = true := by
    refine List.any_eq_true.mpr ⟨u0 :: ut, hu, ?_⟩
    rw [← hcons]
    exact isPrefixOf_append_self (u0 :: ut) rest
  rw [hh]
  rfl

theorem matchDistAt_sound {units : List (List Char)} {l num : List Char}
    (h : matchDistAt units l = some num) :
    ∃ ws unit rest, l = num ++ ws ++ unit ++ rest ∧ isNumTok num = true ∧
      ws.all isSpaceJS = true ∧ unit ∈ units := by
  simp only [matchDistAt] at h
  split at h
  · exact absurd h (by simp)
  · rename_i num0 rest0 hm
    split at h
    · rename_i hunit
      rw [Option.some.inj h] at hm
      obtain ⟨hl, htok⟩ := matchNumAt_sound hm
      obtain ⟨unit, humem, hp⟩ := List.any_eq_true.mp hunit
      obtain ⟨t, ht⟩ := exists_of_isPrefixOf hp
      refine ⟨rest0.takeWhile isSpaceJS, unit, t, ?_, htok, ?_, humem⟩
      · have hr : rest0 = rest0.takeWhile isSpaceJS ++ (unit ++ t) := by
          rw [← ht]
          exact (List.takeWhile_append_dropWhile _ _).symm
        conv_lhs => rw [hl, hr]
        simp [List.append_assoc]
      · exact List.all_eq_true.mpr fun x hx => List.mem_takeWhile_imp hx
    · exact absurd h (by simp)

/-! ## Scanner lemmas -/

theorem scanDist_cons_some {units : List (List Char)} {c : Char}
    {cs num : List Char} (h : matchDistAt units (c :: cs) = some num) :
    scanDist units (c :: cs) = some num := by
  simp [scanDist, h]

theorem scanDist_cons_none {units : List (List Char)} {c : Char}
    {cs : List Char} (h : matchDistAt units (c :: cs) = none) :
    scanDist units (c :: cs) = scanDist units cs := by
  simp [scanDist, h]

theorem scanDist_sound {units : List (List Char)} :
    ∀ {l num : List Char}, scanDist units l = some num →
      OccursWithUnit units l num := by
  intro l
  induction l with
  | nil => intro num h; simp [scanDist] at h
  | cons c cs ih =>
    intro num h
    cases hm : matchDistAt units (c :: cs) with
    | some x =>
      rw [scanDist_cons_some hm] at h
      rw [Option.some.inj h] at hm
      obtain ⟨ws, unit, rest, hl, htok, hws, hu⟩ := matchDistAt_sound hm
      exact ⟨[], ws, unit, rest, by simpa using hl, htok, hws, hu⟩
    | none =>
      rw [scanDist_cons_none hm] at h
      obtain ⟨pre, ws, unit, rest, hl, htok, hws, hu⟩ := ih h
      exact ⟨c :: pre, ws, unit, rest, by simp [hl], htok, hws, hu⟩

theorem scanDist_isSome {units : List (List Char)} (hg : goodUnits units = true)
    {l : List Char} (h : HasDistance units l) :
    (scanDist units l).isSome = true := by
  obtain ⟨num, pre, ws, unit, rest, hl, htok, hws, hu⟩ := h
  subst hl
  simp only [List.append_assoc]
  induction pre with
  | nil =>
    simp only [List.nil_append]
    obtain ⟨n0, nt, rfl⟩ : ∃ n0 nt, num = n0 :: nt := by
      cases num with
      | nil => exact absurd htok (by simp [isNumTok])
      | cons a b => exact ⟨a, b, rfl⟩
    have hm := @matchDistAt_of_occurs units hg (n0 :: nt) ws unit rest htok hws hu
    rw [List.cons_append] at hm
    rw [List.cons_append, scanDist_cons_some hm]
    rfl
  | cons p pt ih =>
    rw [List.cons_append]
    cases hm : matchDistAt units (p :: (pt ++ (num ++ (ws ++ (unit ++ rest))))) with
    | some x => rw [scanDist_cons_some hm]; rfl
    | none => rw [scanDist_cons_none hm]; exact ih

theorem not_hasDistance_of_scan_none {units : List (List Char)}
    (hg : goodUnits units = true) {l : List Char}
    (h : scanDist units l = none) : ¬ HasDistance units l := by
  intro hocc
  have hs := scanDist_isSome hg hocc
  rw [h] at hs
  simp at hs

/-! ## Claim theorems -/

/-- Claim C1: for every distance `d` and mode `m`, `estimateTime d m` equals
`round(d * pace m)` with pace walk = 11.5, run = 5.2, jog = 6.5,
hike = 10.5 minutes per km; in particular `estimateTime 8 run = 42`. -/
theorem estimateTime_spec (d : ℚ) (m : Mode) :
    estimateTime d m =
      jround (d *
        (match m with
         | Mode.walk => (11.5 : ℚ)
         | Mode.run => 5.2
         | Mode.jog => 6.5
         | Mode.hike => 10.5)) ∧
    estimateTime 8 Mode.run = 42 := by
  constructor
  · cases m <;> simp [estimateTime]
  · show jround (8 * (5.2 : ℚ) / 1) = 42
    norm_num [jround]

/-- Claim C2: route synthesis produces exactly 4 waypoints for d ≤ 9,
exactly 5 for 9 < d ≤ 12, and exactly 6 for d > 12. -/
theorem route_waypoint_count (d : ℚ) (m : Mode) (f : String) :
    (d ≤ 9 → (buildRouteFromPrompt d m f).points.length = 4) ∧
    (9 < d → d ≤ 12 → (buildRouteFromPrompt d m f).points.length = 5) ∧
    (12 < d → (buildRouteFromPrompt d m f).points.length = 6) := by
  have hpts : (buildRouteFromPrompt d m f).points = generateShape d := rfl
  refine ⟨fun h1 => ?_, fun h1 h2 => ?_, fun h1 => ?_⟩ <;>
    rw [hpts] <;>
    simp only [generateShape] <;>
    split_ifs <;>
    first
      | rfl
      | (exfalso; linarith)

theorem route_waypoint_count_witness :
    (buildRouteFromPrompt 8 Mode.walk ("Ruta equilibrada")).points.length = 4 ∧
    (buildRouteFromPrompt 10 Mode.run ("Parques")).points.length = 5 ∧
    (buildRouteFromPrompt 13 Mode.run ("Parques")).points.length = 6 := by
  have h4 := (route_waypoint_count 8 Mode.walk ("Ruta equilibrada")).1
  have h5 := (route_waypoint_count 10 Mode.run ("Parques")).2.1
  have h6 := (route_waypoint_count 13 Mode.run ("Parques")).2.2
  exact ⟨h4 (by norm_num), h5 (by norm_num) (by norm_num), h6 (by norm_num)⟩

/-- Claim C3: routes synthesized for distances with the same value rounded
to one decimal (scaled by 10 and rounded) and the same mode share an id,
and the per-mode insertion removes any prior entry with the new id before
appending, so the list never holds two routes with the same id. -/
theorem coach_id_collision_and_insert
    (d1 d2 : ℚ) (m : Mode) (f1 f2 : String) (l : List RouteOption)
    (r : RouteOption)
    (hd : jround (d1 * 10) = jround (d2 * 10))
    (hl : (l.map fun x => x.id).Nodup) :
    (buildRouteFromPrompt d1 m f1).id = (buildRouteFromPrompt d2 m f2).id ∧
    (∀ x ∈ insertRoute l r, x = r ∨ (x ∈ l ∧ x.id ≠ r.id)) ∧
    ((insertRoute l r).map fun x => x.id).Nodup := by
  refine ⟨?_, ?_, ?_⟩
  · show "coach-" ++ modeStr m ++ "-" ++ toString (jround (d1 * 10)) =
      "coach-" ++ modeStr m ++ "-" ++ toString (jround (d2 * 10))
    rw [hd]
  · intro x hx
    rcases List.mem_append.mp hx with hx | hx
    · obtain ⟨hxl, hxne⟩ := List.mem_filter.mp hx
      right
      refine ⟨hxl, ?_⟩
      simpa using hxne
    · left
      simpa using hx
  · unfold insertRoute
    rw [List.map_append]
    refine List.nodup_append.mpr ⟨?_, ?_, ?_⟩
    · exact List.Nodup.sublist (List.Sublist.map _ (List.filter_sublist l)) hl
    · simp
    · intro a ha hb
      simp only [List.map_cons, List.map_nil, List.mem_singleton] at hb
      subst hb
      obtain ⟨x, hxf, hxid⟩ := List.mem_map.mp ha
      obtain ⟨hxl, hxne⟩ := List.mem_filter.mp hxf
      have hne2 : x.id ≠ r.id := by simpa using hxne
      exact hne2 hxid

theorem coach_id_collision_and_insert_witness :
    (buildRouteFromPrompt 10 Mode.run ("A")).id =
      (buildRouteFromPrompt (1004/100 : ℚ) Mode.run ("B")).id ∧
    (∀ x ∈ insertRoute [] (buildRouteFromPrompt 5 Mode.run ("C")),
      x = buildRouteFromPrompt 5 Mode.run ("C") ∨
        (x ∈ ([] : List RouteOption) ∧
          x.id ≠ (buildRouteFromPrompt 5 Mode.run ("C")).id)) ∧
    ((insertRoute [] (buildRouteFromPrompt 5 Mode.run ("C"))).map
      fun x => x.id).Nodup :=
  coach_id_collision_and_insert 10 (1004/100) Mode.run ("A") ("B") []
    (buildRouteFromPrompt 5 Mode.run ("C")) (by norm_num [jround]) (by simp)

/-- Claim C4: for every prompt containing a number followed by km/k/kilómetros,
the classifier parses a distance, and it equals the value (comma converted
to dot) of a number so occurring (the leftmost match of the regex). -/
theorem classify_km_distance (prompt : List Char) (cm : Mode)
    (h : HasDistance kmUnits (prompt.map jsLower)) :
    ∃ num, OccursWithUnit kmUnits (prompt.map jsLower) num ∧
      (parsePrompt prompt cm).distanceKm =
        some (parseDec (replaceCommaOnce num)) := by
  have hg : goodUnits kmUnits = true := by decide
  have hs := scanDist_isSome hg h
  obtain ⟨num, hnum⟩ := Option.isSome_iff_exists.mp hs
  refine ⟨num, scanDist_sound hnum, ?_⟩
  show distanceOf (prompt.map jsLower) = some (parseDec (replaceCommaOnce num))
  simp only [distanceOf, hnum]

theorem classify_km_distance_witness :
    ∃ num, OccursWithUnit kmUnits ((("Dame 5 km").data).map jsLower) num ∧
      (parsePrompt (("Dame 5 km").data) Mode.run).distanceKm =
        some (parseDec (replaceCommaOnce num)) := by
  have hocc : HasDistance kmUnits ((("Dame 5 km").data).map jsLower) :=
    ⟨("5").data, ("dame ").data, (" ").data, ("km").data, [],
      by decide, by decide, by decide, by decide⟩
  exact classify_km_distance (("Dame 5 km").data) Mode.run hocc

/-- Claim C5: for every prompt containing a number followed by mi/millas,
when the kilometre pattern finds no match the classifier parses the mile
number times 1.609 (the kilometre pattern is tried first). -/
theorem classify_mi_distance (prompt : List Char) (cm : Mode)
    (hkm : ¬ HasDistance kmUnits (prompt.map jsLower))
    (hmi : HasDistance miUnits (prompt.map jsLower)) :
    ∃ num, OccursWithUnit miUnits (prompt.map jsLower) num ∧
      (parsePrompt prompt cm).distanceKm =
        some (parseDec (replaceCommaOnce num) * 1.609) := by
  have hgm : goodUnits miUnits = true := by decide
  have hkm0 : scanDist kmUnits (prompt.map jsLower) = none := by
    cases hsc : scanDist kmUnits (prompt.map jsLower) with
    | none => rfl
    | some x => exact absurd ⟨x, scanDist_sound hsc⟩ hkm
  have hs := scanDist_isSome hgm hmi
  obtain ⟨num, hnum⟩ := Option.isSome_iff_exists.mp hs
  refine ⟨num, scanDist_sound hnum, ?_⟩
  show distanceOf (prompt.map jsLower) =
    some (parseDec (replaceCommaOnce num) * 1.609)
  simp only [distanceOf, hkm0, hnum]

theorem classify_mi_distance_witness :
    ∃ num, OccursWithUnit miUnits ((("Dame 3 millas").data).map jsLower) num ∧
      (parsePrompt (("Dame 3 millas").data) Mode.run).distanceKm =
        some (parseDec (replaceCommaOnce num) * 1.609) := by
  have hkm : ¬ HasDistance kmUnits ((("Dame 3 millas").data).map jsLower) :=
    not_hasDistance_of_scan_none (by decide) (by decide)
  have hmi : HasDistance miUnits ((("Dame 3 millas").data).map jsLower) :=
    ⟨("3").data, ("dame ").data, (" ").data, ("mi").data, ("llas").data,
      by decide, by decide, by decide, by decide⟩
  exact classify_mi_distance (("Dame 3 millas").data) Mode.run hkm hmi

/-- Claim C6: `classify("Quiero 7 km suaves en parque", run)` keeps mode
run, parses 7 km, labels focus Parques ("Parks") and intent easy. -/
theorem classify_example_park :
    parsePrompt (("Quiero 7 km suaves en parque").data) Mode.run =
      { mode := Mode.run, distanceKm := some 7, focus := "Parques",
        intent := TrainIntent.easy } := by
  have hstruct : parsePrompt (("Quiero 7 km suaves en parque").data) Mode.run =
      ⟨modeOf ((("Quiero 7 km suaves en parque").data).map jsLower) Mode.run,
        distanceOf ((("Quiero 7 km suaves en parque").data).map jsLower),
        focusOf ((("Quiero 7 km suaves en parque").data).map jsLower),
        intentOf ((("Quiero 7 km suaves en parque").data).map jsLower)⟩ := rfl
  have hscan : scanDist kmUnits
      ((("Quiero 7 km suaves en parque").data).map jsLower) =
      some (("7").data) := by decide
  rw [hstruct]
  simp only [Intent.mk.injEq]
  refine ⟨by decide, ?_, by decide, by decide⟩
  simp only [distanceOf, hscan]
  rfl

/-- Claim C7: for every current mode, `classify("Un trail con desnivel", m)`
returns mode hike, intent trail and focus Terreno mixto ("Mixed terrain"). -/
theorem classify_example_trail (cm : Mode) :
    parsePrompt (("Un trail con desnivel").data) cm =
      { mode := Mode.hike, distanceKm := none, focus := "Terreno mixto",
        intent := TrainIntent.trail } := by
  cases cm <;> decide

/-- Claim C8: the classifier is total, and on a prompt with no recognizable
keyword and no parsable distance it returns all defaults: the current mode,
no distance, the Ruta equilibrada ("balanced route") focus and easy intent. -/
theorem classify_total_defaults (p : List Char) (cm : Mode)
    (hkm : ¬ HasDistance kmUnits (p.map jsLower))
    (hmi : ¬ HasDistance miUnits (p.map jsLower))
    (h1 : includes (p.map jsLower) (("caminar").data) = false)
    (h2 : includes (p.map jsLower) (("trot").data) = false)
    (h3 : includes (p.map jsLower) (("trail").data) = false)
    (h4 : includes (p.map jsLower) (("sendero").data) = false)
    (h5 : includes (p.map jsLower) (("correr").data) = false)
    (h6 : includes (p.map jsLower) (("rápido").data) = false)
    (h7 : includes (p.map jsLower) (("interval").data) = false)
    (h8 : includes (p.map jsLower) (("series").data) = false)
    (h9 : includes (p.map jsLower) (("tempo").data) = false)
    (h10 : includes (p.map jsLower) (("ritmo").data) = false)
    (h11 : includes (p.map jsLower) (("desnivel").data) = false)
    (h12 : includes (p.map jsLower) (("parque").data) = false)
    (h13 : includes (p.map jsLower) (("ilumin").data) = false)
    (h14 : includes (p.map jsLower) (("tráfico").data) = false) :
    parsePrompt p cm =
      { mode := cm, distanceKm := none, focus := "Ruta equilibrada",
        intent := TrainIntent.easy } := by
  have hkm0 : scanDist kmUnits (p.map jsLower) = none := by
    cases hsc : scanDist kmUnits (p.map jsLower) with
    | none => rfl
    | some x => exact absurd ⟨x, scanDist_sound hsc⟩ hkm
  have hmi0 : scanDist miUnits (p.map jsLower) = none := by
    cases hsc : scanDist miUnits (p.map jsLower) with
    | none => rfl
    | some x => exact absurd ⟨x, scanDist_sound hsc⟩ hmi
  have hint : intentOf (p.map jsLower) = TrainIntent.easy := by
    simp [intentOf, h7, h8, h9, h10, h3, h11]
  have hmode : modeOf (p.map jsLower) cm = cm := by
    simp [modeOf, h1, h2, h3, h4, h5, h6, h7]
  have hfocus : focusOf (p.map jsLower) = "Ruta equilibrada" := by
    simp [focusOf, h12, h13, h14, hint]
  have hdist : distanceOf (p.map jsLower) = none := by
    simp only [distanceOf, hkm0, hmi0]
  have hstruct : parsePrompt p cm =
      ⟨modeOf (p.map jsLower) cm, distanceOf (p.map jsLower),
        focusOf (p.map jsLower), intentOf (p.map jsLower)⟩ := rfl
  rw [hstruct, hint, hmode, hfocus, hdist]

theorem classify_total_defaults_witness :
    parsePrompt (("hola").data) Mode.jog =
      { mode := Mode.jog, distanceKm := none, focus := "Ruta equilibrada",
        intent := TrainIntent.easy } :=
  classify_total_defaults (("hola").data) Mode.jog
    (not_hasDistance_of_scan_none (by decide) (by decide))
    (not_hasDistance_of_scan_none (by decide) (by decide))
    (by decide) (by decide) (by decide) (by decide) (by decide) (by decide)
    (by decide) (by decide) (by decide) (by decide) (by decide) (by decide)
    (by decide) (by decide)

/-- Claim C9: the geographic coordinate of waypoint (x, y) is
`(center.lng + (x-50)*0.00075, center.lat + (50-y)*0.00075)` around
`MAP_CENTER`, and the per-point kind metadata classifies the first point
start, the last end, and all others mid. -/
theorem buildRouteGeo_spec (route : RouteOption) (i : ℕ)
    (hi : i < route.points.length) (hlen : 2 ≤ route.points.length) :
    (geoCoords route)[i]? =
      some (MAP_CENTER.1 + ((route.points.get ⟨i, hi⟩).x - 50) * 0.00075,
        MAP_CENTER.2 + (50 - (route.points.get ⟨i, hi⟩).y) * 0.00075) ∧
    (geoKinds route).head? = some "start" ∧
    (geoKinds route).getLast? = some "end" ∧
    (0 < i → i + 1 < route.points.length →
      (geoKinds route)[i]? = some "mid") := by
  obtain ⟨k, hk⟩ : ∃ k, route.points.length = (k + 1) + 1 :=
    ⟨route.points.length - 2, by omega⟩
  refine ⟨?_, ?_, ?_, ?_⟩
  · unfold geoCoords
    rw [List.getElem?_map, List.getElem?_eq_getElem hi]
    simp [List.get_eq_getElem]
  · unfold geoKinds
    rw [hk, List.range_succ_eq_map]
    simp
  · unfold geoKinds
    rw [hk, List.range_succ, List.map_append]
    simp only [List.map_cons, List.map_nil]
    rw [List.getLast?_concat]
    simp
  · intro h0 h1
    unfold geoKinds
    rw [List.getElem?_map, List.getElem?_range hi]
    have e0 : i ≠ 0 := by omega
    have e1 : i ≠ route.points.length - 1 := by omega
    simp [e0, e1]

theorem buildRouteGeo_spec_witness :
    (geoCoords (buildRouteFromPrompt 8 Mode.run ("Parques")))[1]? =
      some (MAP_CENTER.1 + ((36 : ℚ) - 50) * 0.00075,
        MAP_CENTER.2 + (50 - (64 : ℚ)) * 0.00075) ∧
    (geoKinds (buildRouteFromPrompt 8 Mode.run ("Parques"))).head? =
      some "start" ∧
    (geoKinds (buildRouteFromPrompt 8 Mode.run ("Parques"))).getLast? =
      some "end" ∧
    (geoKinds (buildRouteFromPrompt 8 Mode.run ("Parques")))[1]? =
      some "mid" := by
  have h := buildRouteGeo_spec (buildRouteFromPrompt 8 Mode.run ("Parques")) 1
    (by decide) (by decide)
  exact ⟨h.1, h.2.1, h.2.2.1, h.2.2.2 (by decide) (by decide)⟩

/-- Claim C10: when no distance parses, the coach flow substitutes the
per-mode default (walk 4.5, jog 6.5, hike 10.5, run 8.0 km) and builds
the route from that value. -/
theorem coach_default_distance (p : List Char) (cm : Mode)
    (h : (parsePrompt p cm).distanceKm = none) :
    (coachPlanRoute p cm).distanceKm =
      suggestDistance (parsePrompt p cm).mode ∧
    suggestDistance Mode.walk = 4.5 ∧ suggestDistance Mode.jog = 6.5 ∧
    suggestDistance Mode.hike = 10.5 ∧ suggestDistance Mode.run = 8.0 := by
  refine ⟨?_, rfl, rfl, rfl, rfl⟩
  have hc : (coachPlanRoute p cm).distanceKm =
      ((parsePrompt p cm).distanceKm).getD
        (suggestDistance (parsePrompt p cm).mode) := rfl
  rw [hc, h]
  rfl

theorem coach_default_distance_witness :
    (coachPlanRoute (("hola").data) Mode.hike).distanceKm =
      suggestDistance (parsePrompt (("hola").data) Mode.hike).mode ∧
    suggestDistance Mode.walk = 4.5 ∧ suggestDistance Mode.jog = 6.5 ∧
    suggestDistance Mode.hike = 10.5 ∧ suggestDistance Mode.run = 8.0 :=
  coach_default_distance (("hola").data) Mode.hike (by decide)

end HikeUp
